import Mathlib

/-!
Verification of the GRR UI presentation-layer slice:

* `grr/server/grr_response_server/gui/ui/lib/models/flow.ts`
  — pure data-model utilities over flow list entries and result sets.
* the stats report directive controller (AngularJS)
  — parameter-change handling, defaulting, and the fetch state machine.

TypeScript/JS values are embedded shallowly: optional string fields
(`withType?: string`) become `Option String` (JS `===` on two possibly
`undefined` strings is `Option String` equality, since `undefined === undefined`
is `true` and a string is never `===` to `undefined`); opaque `unknown`
payloads become a type parameter; JS numbers used as integer timestamps
become `Int`; Angular scope bindings, which may hold `undefined`, `null`
or a value, become the three-valued `JsVal`.
-/

set_option autoImplicit false

namespace Grr

/-! ## Data model (`flow.ts`) -/

/-- The `FlowState` enum from `flow.ts`. -/
inductive FlowState where
  | UNSET
  | RUNNING
  | FINISHED
  | ERROR
deriving DecidableEq, Repr

/-- A `Flow` record (`flow.ts`).  `Date` fields are epoch milliseconds;
the opaque `unknown` fields `args` and `progress` take the payload type `α`
(`undefined` becomes `none`). -/
structure Flow (α : Type) where
  flowId : String
  clientId : String
  lastActiveAt : Int
  startedAt : Int
  name : String
  creator : String
  args : Option α
  progress : Option α
  state : FlowState
deriving DecidableEq

/-- A single flow result (`flow.ts`): opaque payload, tag, timestamp. -/
structure FlowResult (α : Type) where
  payload : α
  tag : String
  timestamp : Int
deriving DecidableEq

/-- A flow results query (`flow.ts`): pagination window plus optional
type/tag filters. -/
structure FlowResultsQuery where
  flowId : String
  withType : Option String
  withTag : Option String
  offset : Nat
  count : Nat
deriving DecidableEq

/-- The state of a result set (`flow.ts`). -/
inductive FlowResultSetState where
  | IN_PROGRESS
  | FETCHED
deriving DecidableEq, Repr

/-- A result set returned for a query (`flow.ts`). -/
structure FlowResultSet (α : Type) where
  sourceQuery : FlowResultsQuery
  state : FlowResultSetState
  items : List (FlowResult α)
deriving DecidableEq

/-- A single entry of the flows list (`flow.ts`). -/
structure FlowListEntry (α : Type) where
  flow : Flow α
  resultSets : List (FlowResultSet α)
deriving DecidableEq

variable {α : Type}

/-- The `withTag`/`withType` comparison from the loop body of
`updateFlowListEntryResultSet`:
`rs.sourceQuery.withTag === resultSet.sourceQuery.withTag &&
 rs.sourceQuery.withType === resultSet.sourceQuery.withType`. -/
def sameKey (rs other : FlowResultSet α) : Bool :=
  rs.sourceQuery.withTag == other.sourceQuery.withTag &&
    rs.sourceQuery.withType == other.sourceQuery.withType

/-- The `(withType, withTag)` filter key identifying a result set. -/
def resultSetKey (rs : FlowResultSet α) : Option String × Option String :=
  (rs.sourceQuery.withType, rs.sourceQuery.withTag)

/-- Function `updateFlowListEntryResultSet` from `flow.ts`.  The source loop pushes
`resultSet` for every element matching its key (setting `pushed`) and pushes
the element itself otherwise; afterwards, if nothing matched, `resultSet` is
appended.  The loop is therefore exactly a `map` of the per-element choice,
with `pushed` being `any` of the key test. -/
def updateFlowListEntryResultSet (fle : FlowListEntry α)
    (resultSet : FlowResultSet α) : FlowListEntry α :=
  let newResultSets :=
    fle.resultSets.map fun rs => if sameKey rs resultSet then resultSet else rs
  let pushed := fle.resultSets.any fun rs => sameKey rs resultSet
  { fle with
    resultSets := if pushed then newResultSets else newResultSets ++ [resultSet] }

/-- Function `findFlowListEntryResultSet` from `flow.ts`: first result set whose
`sourceQuery` matches the given criteria (`Array.prototype.find`). -/
def findFlowListEntryResultSet (fle : FlowListEntry α)
    (withType : Option String) (withTag : Option String) :
    Option (FlowResultSet α) :=
  fle.resultSets.find? fun rs =>
    rs.sourceQuery.withType == withType && rs.sourceQuery.withTag == withTag

/-- Function `flowListEntryFromFlow` from `flow.ts`. -/
def flowListEntryFromFlow (flow : Flow α) : FlowListEntry α :=
  { flow := flow, resultSets := [] }

/-! ## Report directive controller (`report-directive.js`)

The controller's scope exposes four two-way bindings (`name`, `startTime`,
`duration`, `clientLabel`).  Each binding can hold `undefined`, `null`, or a
value — the distinction matters because `onParamsChange_` tests plain JS
truthiness (`if (x)`) and then strict `null` equality (`if (x === null)`). -/

/-- A JS binding slot: `undefined`, `null`, or a value of type `β`. -/
inductive JsVal (β : Type) where
  | undefinedV
  | nullV
  | value (v : β)
deriving DecidableEq, Repr

/-- JS truthiness of a number-valued binding: `undefined`, `null` and `0`
are falsy. -/
def jsTruthyInt : JsVal Int → Bool
  | JsVal.value v => v != 0
  | _ => false

/-- JS truthiness of a string-valued binding: `undefined`, `null` and the
empty string are falsy. -/
def jsTruthyStr : JsVal String → Bool
  | JsVal.value v => v != ""
  | _ => false

/-- The directive scope bindings (`scope: {name, startTime, duration,
clientLabel}` in the directive definition object). -/
structure Scope where
  name : JsVal String
  startTime : JsVal Int
  duration : JsVal Int
  clientLabel : JsVal String
deriving DecidableEq, Repr

/-- Constant `MONTH_SECONDS = 30*24*60*60`. -/
def MONTH_SECONDS : Int := 30 * 24 * 60 * 60

/-- Constant `DEFAULT_START_TIME = (moment().valueOf() - MONTH_SECONDS * 1000) * 1000`:
a month before now, in backend timestamp units (microseconds).
`moment().valueOf()` — the epoch-milliseconds clock reading at module load —
is passed in as `nowMs`. -/
def DEFAULT_START_TIME (nowMs : Int) : Int :=
  (nowMs - MONTH_SECONDS * 1000) * 1000

/-- Constant `DEFAULT_DURATION = MONTH_SECONDS`. -/
def DEFAULT_DURATION : Int := MONTH_SECONDS

/-- Constant `DEFAULT_CLIENT_LABEL = (empty string)`. -/
def DEFAULT_CLIENT_LABEL : String := ""

/-- The backend wire format wraps every value in type-tag metadata. -/
structure TypedValue (β : Type) where
  typeTag : String
  value : β
deriving DecidableEq, Repr

/-- Modelled from the spec: `grrUi.core.apiService.stripTypeInfo` is
`goog.require`d from outside this slice of the repository; per the spec's
glossary, type-stripping is "removing backend wire-format type-tag wrappers
before use in the view". -/
def stripTypeInfo {β : Type} (tv : TypedValue β) : β :=
  tv.value

/-- The stripped report descriptor; the controller reads its `type` tag
(`this.reportDesc['type']`) to derive the title.  Other descriptor fields are
opaque to the controller and carried as `rest`. -/
structure ReportDesc (ρ : Type) where
  type : String
  rest : ρ
deriving DecidableEq, Repr

/-- A response to `GET stats/reports/{name}`: `{data, desc}`, each wrapped in
backend type-tagging. -/
structure ApiResponse (δ ρ : Type) where
  data : TypedValue δ
  desc : TypedValue (ReportDesc ρ)
deriving DecidableEq, Repr

/-- The GET request issued by `fetchData_`: url `'stats/reports/' + name`
and the query parameters object. -/
structure ApiRequest where
  url : String
  start_time : Int
  duration : Int
  client_label : String
deriving DecidableEq, Repr

/-- The mutable fields of `ReportController`.  `state` is a plain JS string
(the source only documents the intent that it range over `'INITIAL'`,
`'LOADING'`, `'LOADED'`).  `typedStartTime`/`typedDuration` stand for the
`value` field of the typed RDF wrappers the user edits; `reportData`,
`reportDesc` and `titleCasedType` start out `undefined` (`none`). -/
structure Controller (δ ρ : Type) where
  state : String
  titleCasedType : Option String
  reportData : Option δ
  reportDesc : Option (ReportDesc ρ)
  startTime : Int
  typedStartTime : Int
  duration : Int
  typedDuration : Int
  clientLabel : String
  modelClientLabel : String
deriving DecidableEq, Repr

variable {δ ρ : Type}

/-- The controller constructor's synchronous field initialization:
`state = 'INITIAL'`, `startTime = DEFAULT_START_TIME`,
`duration = DEFAULT_DURATION`, `clientLabel = modelClientLabel =
DEFAULT_CLIENT_LABEL`; the typed wrappers are seeded with the same values
(`this.typedStartTime['value'] = this.startTime`, likewise for duration). -/
def initialController (nowMs : Int) : Controller δ ρ :=
  { state := "INITIAL"
    titleCasedType := none
    reportData := none
    reportDesc := none
    startTime := DEFAULT_START_TIME nowMs
    typedStartTime := DEFAULT_START_TIME nowMs
    duration := DEFAULT_DURATION
    typedDuration := DEFAULT_DURATION
    clientLabel := DEFAULT_CLIENT_LABEL
    modelClientLabel := DEFAULT_CLIENT_LABEL }

/-- One parameter block of `onParamsChange_` for a numeric binding:
`if (x) { this.f = x; } if (x === null) { this.f = DEFAULT; }`.
A truthy value (nonzero number) is stored; `null` stores the default;
`undefined` and the falsy `0` leave the current field untouched. -/
def applyNumParam (p : JsVal Int) (deflt cur : Int) : Int :=
  match p with
  | JsVal.value v => if v = 0 then cur else v
  | JsVal.nullV => deflt
  | JsVal.undefinedV => cur

/-- One parameter block of `onParamsChange_` for the string binding:
`if (x) { this.f = x; } if (x === null) { this.f = DEFAULT; }`.
A truthy value (nonempty string) is stored; `null` stores the default;
`undefined` and the falsy `''` leave the current field untouched. -/
def applyStrParam (p : JsVal String) (deflt cur : String) : String :=
  match p with
  | JsVal.value v => if v = "" then cur else v
  | JsVal.nullV => deflt
  | JsVal.undefinedV => cur

/-- Method `fetchData_`: when `scope['name']` is truthy, set `state = 'LOADING'`
and issue `GET 'stats/reports/' + name` with the controller's current
`start_time`/`duration`/`client_label`; otherwise do nothing.  The request
the promise-based API call would send is returned alongside the updated
controller. -/
def fetchData (c : Controller δ ρ) (s : Scope) :
    Controller δ ρ × Option ApiRequest :=
  match s.name with
  | JsVal.value name =>
    if name = "" then (c, none)
    else
      ({ c with state := "LOADING" },
       some { url := "stats/reports/" ++ name
              start_time := c.startTime
              duration := c.duration
              client_label := c.clientLabel })
  | _ => (c, none)

/-- Method `onParamsChange_`: normalize each of the three value bindings
(truthy ⇒ store, `null` ⇒ default, otherwise keep), then, if `scope['name']`
is truthy, run `fetchData_`. -/
def onParamsChange (nowMs : Int) (c : Controller δ ρ) (s : Scope) :
    Controller δ ρ × Option ApiRequest :=
  let c :=
    { c with
      startTime := applyNumParam s.startTime (DEFAULT_START_TIME nowMs) c.startTime
      duration := applyNumParam s.duration DEFAULT_DURATION c.duration
      clientLabel := applyStrParam s.clientLabel DEFAULT_CLIENT_LABEL c.clientLabel }
  if jsTruthyStr s.name then fetchData c s else (c, none)

/-- The fulfillment callback registered by `fetchData_` on the API promise:
strip the type wrappers off `data` and `desc`, derive the title from the
descriptor's `type` tag, and set `state = 'LOADED'`.
`grrUi.core.utils.upperCaseToTitleCase` is required from outside this slice,
so it is passed in as `titleCase`. -/
def onFetchResponse (titleCase : String → String) (c : Controller δ ρ)
    (resp : ApiResponse δ ρ) : Controller δ ρ :=
  { c with
    reportData := some (stripTypeInfo resp.data)
    reportDesc := some (stripTypeInfo resp.desc)
    titleCasedType := some (titleCase (stripTypeInfo resp.desc).type)
    state := "LOADED" }

/-- The outcome of the asynchronous GET issued by `fetchData_`. -/
inductive FetchOutcome (δ ρ : Type) where
  | success (resp : ApiResponse δ ρ)
  | failure
deriving Repr

/-- Resolution of the API promise.  `fetchData_` registers only a
fulfillment callback (`.then(function(response) {...})`, lines 189–197) and
no rejection callback, so a failed request runs no code at all and leaves
the controller untouched. -/
def resolveFetch (titleCase : String → String) (c : Controller δ ρ) :
    FetchOutcome δ ρ → Controller δ ρ
  | FetchOutcome.success resp => onFetchResponse titleCase c resp
  | FetchOutcome.failure => c

/-- Method `refreshReport`: copy the user-edited typed values back into the scope
bindings (`scope['startTime'] = typedStartTime['value']`, etc.).  It assigns
only to the scope; the controller itself is returned unchanged.  Any re-fetch
happens later, through the `$watchGroup` firing `onParamsChange_`. -/
def refreshReport (c : Controller δ ρ) (s : Scope) : Controller δ ρ × Scope :=
  (c,
   { s with
     startTime := JsVal.value c.typedStartTime
     duration := JsVal.value c.typedDuration
     clientLabel := JsVal.value c.modelClientLabel })

/-- The three state strings the source documents as the intended range of
`this.state`. -/
def allowedStates : List String := ["INITIAL", "LOADING", "LOADED"]

/-! ## Concrete sample values (used to instantiate the general theorems) -/

def flowW : Flow Nat :=
  { flowId := "F1", clientId := "C1", lastActiveAt := 0, startedAt := 0,
    name := "ListProcesses", creator := "user", args := none, progress := none,
    state := FlowState.RUNNING }

def queryW (t g : Option String) : FlowResultsQuery :=
  { flowId := "F1", withType := t, withTag := g, offset := 0, count := 100 }

def rsW (t g : Option String) (n : Nat) : FlowResultSet Nat :=
  { sourceQuery := queryW t g, state := FlowResultSetState.FETCHED,
    items := [{ payload := n, tag := "", timestamp := 0 }] }

def fleW : FlowListEntry Nat :=
  { flow := flowW, resultSets := [rsW (some "T") none 1, rsW none none 2] }

def ctrlW : Controller Nat Nat := initialController 1700000000000

def scopeW : Scope :=
  { name := JsVal.value "OSBreakdown", startTime := JsVal.nullV,
    duration := JsVal.nullV, clientLabel := JsVal.nullV }

def ctrlEdited : Controller Nat Nat :=
  { ctrlW with
    startTime := 5
    duration := 6
    clientLabel := "lbl" }

def scopeMixed : Scope :=
  { name := JsVal.value "OSBreakdown", startTime := JsVal.undefinedV,
    duration := JsVal.value 7, clientLabel := JsVal.undefinedV }

def respW : ApiResponse Nat Nat :=
  { data := { typeTag := "ApiReportData", value := 7 },
    desc := { typeTag := "ApiReportDescriptor",
              value := { type := "CLIENT", rest := 0 } } }

/-! ## Supporting lemmas about the flow-model utilities -/

lemma flowListEntry_ext {e1 e2 : FlowListEntry α} (hf : e1.flow = e2.flow)
    (hr : e1.resultSets = e2.resultSets) : e1 = e2 := by
  cases e1; cases e2; simp_all

lemma sameKey_iff (a b : FlowResultSet α) :
    sameKey a b = true ↔ resultSetKey a = resultSetKey b := by
  simp [sameKey, resultSetKey, Prod.ext_iff, and_comm]

lemma sameKey_refl (a : FlowResultSet α) : sameKey a a = true := by
  simp [sameKey]

/-- The predicate `findFlowListEntryResultSet` scans with, applied at the key
of `rs`, is the same test as `sameKey · rs`. -/
lemma findPred_eq_sameKey (a rs : FlowResultSet α) :
    (a.sourceQuery.withType == rs.sourceQuery.withType &&
      a.sourceQuery.withTag == rs.sourceQuery.withTag) = sameKey a rs := by
  simp [sameKey, Bool.and_comm]

/-- Unfolding of the `resultSets` field produced by
`updateFlowListEntryResultSet`. -/
lemma update_resultSets (fle : FlowListEntry α) (rs : FlowResultSet α) :
    (updateFlowListEntryResultSet fle rs).resultSets =
      if fle.resultSets.any (fun x => sameKey x rs) then
        fle.resultSets.map fun x => if sameKey x rs then rs else x
      else
        (fle.resultSets.map fun x => if sameKey x rs then rs else x) ++ [rs] :=
  rfl

lemma update_flow_eq (fle : FlowListEntry α) (rs : FlowResultSet α) :
    (updateFlowListEntryResultSet fle rs).flow = fle.flow :=
  rfl

/-- When no element of `l` matches the key of `rs`, the replacement map is the
identity. -/
lemma map_replace_eq_self (rs : FlowResultSet α) {l : List (FlowResultSet α)}
    (h : ∀ s ∈ l, sameKey s rs = false) :
    (l.map fun x => if sameKey x rs then rs else x) = l := by
  induction l with
  | nil => rfl
  | cons a t ih =>
    have ha := h a (List.mem_cons_self a t)
    simp only [List.map_cons, ha, Bool.false_eq_true, if_false, List.cons.injEq,
      true_and]
    exact ih fun s hs => h s (List.mem_cons_of_mem a hs)

/-- The replacement map is idempotent on each element. -/
lemma replace_replace (rs x : FlowResultSet α) :
    (if sameKey (if sameKey x rs then rs else x) rs then rs
     else if sameKey x rs then rs else x) =
      if sameKey x rs then rs else x := by
  by_cases h : sameKey x rs = true
  · simp [h, sameKey_refl]
  · simp [h]

/-- If some element of `l` matches the key of `rs`, the replaced list still
contains a match. -/
lemma any_map_replace (rs : FlowResultSet α) {l : List (FlowResultSet α)}
    (h : l.any (fun x => sameKey x rs) = true) :
    (l.map fun x => if sameKey x rs then rs else x).any
      (fun x => sameKey x rs) = true := by
  obtain ⟨x, hx, hpx⟩ := List.any_eq_true.mp h
  refine List.any_eq_true.mpr ⟨rs, ?_, sameKey_refl rs⟩
  have hmem := List.mem_map_of_mem (fun y => if sameKey y rs then rs else y) hx
  simpa [hpx] using hmem

/-- Claim C2: applying `updateFlowListEntryResultSet` twice with the same
result set yields the same entry as applying it once. -/
theorem updateFlowListEntryResultSet_idempotent (fle : FlowListEntry α)
    (rs : FlowResultSet α) :
    updateFlowListEntryResultSet (updateFlowListEntryResultSet fle rs) rs =
      updateFlowListEntryResultSet fle rs := by
  refine flowListEntry_ext rfl ?_
  by_cases h : fle.resultSets.any (fun x => sameKey x rs) = true
  · have hinner : (updateFlowListEntryResultSet fle rs).resultSets =
        fle.resultSets.map fun x => if sameKey x rs then rs else x := by
      rw [update_resultSets, if_pos h]
    rw [update_resultSets (updateFlowListEntryResultSet fle rs) rs, hinner,
      if_pos (any_map_replace rs h), List.map_map]
    exact List.map_congr_left fun x _ => replace_replace rs x
  · have hall : ∀ s ∈ fle.resultSets, sameKey s rs = false := by
      intro s hs
      by_contra hc
      exact h (List.any_eq_true.mpr ⟨s, hs, by simpa using hc⟩)
    have hinner : (updateFlowListEntryResultSet fle rs).resultSets =
        fle.resultSets ++ [rs] := by
      rw [update_resultSets, if_neg (by simp [h]), map_replace_eq_self rs hall]
    have hany : (fle.resultSets ++ [rs]).any (fun x => sameKey x rs) = true :=
      List.any_eq_true.mpr ⟨rs, by simp, sameKey_refl rs⟩
    rw [update_resultSets (updateFlowListEntryResultSet fle rs) rs, hinner,
      if_pos hany, List.map_append, map_replace_eq_self rs hall]
    simp [sameKey_refl]

/-- Claim C8: the model utilities are pure — `updateFlowListEntryResultSet`
returns a new entry with the same `flow` (its arguments, being Lean values,
cannot be mutated), and every result set returned by
`findFlowListEntryResultSet` matches the requested `withType`/`withTag`. -/
theorem update_find_pure (fle : FlowListEntry α) (rs : FlowResultSet α)
    (t g : Option String) :
    (updateFlowListEntryResultSet fle rs).flow = fle.flow ∧
    ((findFlowListEntryResultSet fle t g).all fun r =>
        r.sourceQuery.withType == t && r.sourceQuery.withTag == g) = true := by
  refine ⟨rfl, ?_⟩
  unfold findFlowListEntryResultSet
  cases hf : fle.resultSets.find? (fun r =>
      r.sourceQuery.withType == t && r.sourceQuery.withTag == g) with
  | none => rfl
  | some r => simpa using List.find?_some hf

/-- Scanning the replaced list for the key of `rs` finds `rs` exactly when
some element of `l` matched. -/
lemma find_map_replace (rs : FlowResultSet α) (l : List (FlowResultSet α)) :
    ((l.map fun x => if sameKey x rs then rs else x).find? fun x =>
        x.sourceQuery.withType == rs.sourceQuery.withType &&
          x.sourceQuery.withTag == rs.sourceQuery.withTag) =
      if l.any (fun x => sameKey x rs) then some rs else none := by
  have hfun : (fun x : FlowResultSet α =>
      x.sourceQuery.withType == rs.sourceQuery.withType &&
        x.sourceQuery.withTag == rs.sourceQuery.withTag) =
      fun x => sameKey x rs :=
    funext fun a => findPred_eq_sameKey a rs
  rw [hfun]
  induction l with
  | nil => rfl
  | cons a t ih =>
    by_cases ha : sameKey a rs = true
    · simp [ha, sameKey_refl]
    · simpa [ha] using ih

/-- Claim C9: after merging `rs`, looking up the key of `rs` returns `rs`. -/
theorem findFlowListEntryResultSet_after_update (fle : FlowListEntry α)
    (rs : FlowResultSet α) :
    findFlowListEntryResultSet (updateFlowListEntryResultSet fle rs)
      rs.sourceQuery.withType rs.sourceQuery.withTag = some rs := by
  unfold findFlowListEntryResultSet
  rw [update_resultSets]
  by_cases h : fle.resultSets.any (fun x => sameKey x rs) = true
  · rw [if_pos h, find_map_replace, if_pos h]
  · rw [if_neg (by simp [h]), List.find?_append, find_map_replace,
      if_neg (by simp [h])]
    simp

/-- When the keys of `l` are pairwise distinct and some element matches the
key of `rs`, the list decomposes around a unique matching element, and the
replacement map substitutes `rs` exactly there. -/
lemma replace_decomposition (rs : FlowResultSet α) {l : List (FlowResultSet α)}
    (hnd : (l.map resultSetKey).Nodup)
    (hex : ∃ s ∈ l, sameKey s rs = true) :
    ∃ l1 a l2, l = l1 ++ a :: l2 ∧ sameKey a rs = true ∧
      (∀ b ∈ l1, sameKey b rs = false) ∧ (∀ b ∈ l2, sameKey b rs = false) ∧
      (l.map fun x => if sameKey x rs then rs else x) = l1 ++ rs :: l2 := by
  induction l with
  | nil => simp at hex
  | cons c t ih =>
    rw [List.map_cons, List.nodup_cons] at hnd
    obtain ⟨hnotin, hndt⟩ := hnd
    by_cases hc : sameKey c rs = true
    · have ht : ∀ b ∈ t, sameKey b rs = false := by
        intro b hb
        by_contra hbc
        have hb' : sameKey b rs = true := by simpa using hbc
        have hkey : resultSetKey c = resultSetKey b := by
          rw [sameKey_iff] at hc hb'
          rw [hc, hb']
        refine hnotin ?_
        rw [hkey]
        exact List.mem_map_of_mem resultSetKey hb
      refine ⟨[], c, t, by simp, hc, by simp, ht, ?_⟩
      rw [List.map_cons, if_pos hc, map_replace_eq_self rs ht]
      simp
    · have hc' : sameKey c rs = false := by simpa using hc
      obtain ⟨s, hs, hsk⟩ := hex
      have hst : s ∈ t := by
        rcases List.mem_cons.mp hs with h1 | h1
        · exact absurd (h1 ▸ hsk) hc
        · exact h1
      obtain ⟨l1, a, l2, hdec, hak, hl1, hl2, hmap⟩ :=
        ih hndt ⟨s, hst, hsk⟩
      refine ⟨c :: l1, a, l2, by rw [hdec, List.cons_append], hak, ?_, hl2, ?_⟩
      · intro b hb
        rcases List.mem_cons.mp hb with h1 | h1
        · rw [h1]; exact hc'
        · exact hl1 b h1
      · rw [List.map_cons, if_neg hc, hmap, List.cons_append]

/-- Claim C1: on an entry whose result sets carry pairwise-distinct
`(withType, withTag)` filter keys (the data-model invariant: a
`FlowListEntry` is "deduplicated by filter key"), merging a result set whose
key matches an existing set replaces exactly that one set in place; when no
existing set matches, the new set is appended at the end. -/
theorem updateFlowListEntryResultSet_replaces_or_appends
    (fle : FlowListEntry α) (rs : FlowResultSet α)
    (hnd : (fle.resultSets.map resultSetKey).Nodup) :
    ((∃ s ∈ fle.resultSets, sameKey s rs = true) →
      ∃ l1 a l2, fle.resultSets = l1 ++ a :: l2 ∧ sameKey a rs = true ∧
        (∀ b ∈ l1, sameKey b rs = false) ∧
        (∀ b ∈ l2, sameKey b rs = false) ∧
        (updateFlowListEntryResultSet fle rs).resultSets = l1 ++ rs :: l2) ∧
    ((∀ s ∈ fle.resultSets, sameKey s rs = false) →
      (updateFlowListEntryResultSet fle rs).resultSets =
        fle.resultSets ++ [rs]) := by
  constructor
  · intro hex
    obtain ⟨l1, a, l2, hdec, hak, hl1, hl2, hmap⟩ :=
      replace_decomposition rs hnd hex
    have hany : fle.resultSets.any (fun x => sameKey x rs) = true := by
      obtain ⟨s, hs, hsk⟩ := hex
      exact List.any_eq_true.mpr ⟨s, hs, hsk⟩
    exact ⟨l1, a, l2, hdec, hak, hl1, hl2,
      by rw [update_resultSets, if_pos hany, hmap]⟩
  · intro hall
    have hany : fle.resultSets.any (fun x => sameKey x rs) = false := by
      simp only [List.any_eq_false]
      intro x hx
      simp [hall x hx]
    rw [update_resultSets, hany, if_neg (by simp),
      map_replace_eq_self rs hall]

/-- Witness for C1: with two distinct-keyed result sets present, merging a
set keyed `(some "T", none)` replaces the existing set with that key. -/
theorem updateFlowListEntryResultSet_replaces_or_appends_witness :
    ∃ l1 a l2, fleW.resultSets = l1 ++ a :: l2 ∧
      sameKey a (rsW (some "T") none 3) = true ∧
      (∀ b ∈ l1, sameKey b (rsW (some "T") none 3) = false) ∧
      (∀ b ∈ l2, sameKey b (rsW (some "T") none 3) = false) ∧
      (updateFlowListEntryResultSet fleW (rsW (some "T") none 3)).resultSets =
        l1 ++ (rsW (some "T") none 3) :: l2 :=
  (updateFlowListEntryResultSet_replaces_or_appends fleW
      (rsW (some "T") none 3) (by decide)).1 (by decide)

/-- Claim C10: merging keeps every non-matching result set at its original
position, keeps the length when some set matches the new key, appends the
new set at the end otherwise, and a fresh entry built by
`flowListEntryFromFlow` has an empty `resultSets` list on which every lookup
returns `undefined`. -/
theorem update_preserves_order_and_fresh_entry (fle : FlowListEntry α)
    (rs : FlowResultSet α) (flow : Flow α) (t g : Option String) :
    (∀ i, ∀ h : i < fle.resultSets.length,
        sameKey (fle.resultSets.get ⟨i, h⟩) rs = false →
        ∃ h2 : i < (updateFlowListEntryResultSet fle rs).resultSets.length,
          (updateFlowListEntryResultSet fle rs).resultSets.get ⟨i, h2⟩ =
            fle.resultSets.get ⟨i, h⟩) ∧
    ((fle.resultSets.any fun x => sameKey x rs) = true →
      (updateFlowListEntryResultSet fle rs).resultSets.length =
        fle.resultSets.length) ∧
    ((fle.resultSets.any fun x => sameKey x rs) = false →
      (updateFlowListEntryResultSet fle rs).resultSets =
        fle.resultSets ++ [rs]) ∧
    (flowListEntryFromFlow flow).resultSets = ([] : List (FlowResultSet α)) ∧
    findFlowListEntryResultSet (flowListEntryFromFlow flow) t g = none := by
  have happend : (fle.resultSets.any fun x => sameKey x rs) = false →
      (updateFlowListEntryResultSet fle rs).resultSets =
        fle.resultSets ++ [rs] := by
    intro hany
    have hall : ∀ s ∈ fle.resultSets, sameKey s rs = false := by
      intro s hs
      have := List.any_eq_false.mp hany s hs
      simpa using this
    rw [update_resultSets, hany, if_neg (by simp),
      map_replace_eq_self rs hall]
  refine ⟨?_, ?_, happend, rfl, rfl⟩
  · intro i h hkey
    by_cases hany : (fle.resultSets.any fun x => sameKey x rs) = true
    · have hout : (updateFlowListEntryResultSet fle rs).resultSets =
          fle.resultSets.map fun x => if sameKey x rs then rs else x := by
        rw [update_resultSets, if_pos hany]
      refine ⟨by rw [hout]; simpa using h, ?_⟩
      rw [List.get_eq_getElem] at hkey
      simp only [hout, List.get_eq_getElem, List.getElem_map, hkey,
        Bool.false_eq_true, if_false]
    · have hout := happend (by simpa using hany)
      refine ⟨by rw [hout]; simp; omega, ?_⟩
      simp only [hout, List.get_eq_getElem]
      exact List.getElem_append_left h
  · intro hany
    rw [update_resultSets, if_pos hany, List.length_map]

/-- Witness for C10: merging a result set keyed `(some "X", none)`, which
matches nothing in the sample entry, appends it. -/
theorem update_preserves_order_and_fresh_entry_witness :
    (updateFlowListEntryResultSet fleW (rsW (some "X") none 3)).resultSets =
      fleW.resultSets ++ [rsW (some "X") none 3] :=
  (update_preserves_order_and_fresh_entry fleW (rsW (some "X") none 3)
      flowW none none).2.2.1 (by decide)

/-! ## Supporting lemmas about the report controller -/

variable {δ ρ : Type}

/-- Running `fetchData_` either leaves the controller unchanged (falsy name)
or only flips its state to `'LOADING'`. -/
lemma fetchData_fst (c : Controller δ ρ) (s : Scope) :
    (fetchData c s).1 = c ∨
    (fetchData c s).1 = { c with state := "LOADING" } := by
  unfold fetchData
  cases hn : s.name with
  | value nm =>
    by_cases h : nm = ""
    · left; simp [h]
    · right; simp [h]
  | undefinedV => left; rfl
  | nullV => left; rfl

/-- The parameter fields of the controller returned by `onParamsChange_` are
exactly the normalized scope values; the later `fetchData_` call never
touches them. -/
lemma onParamsChange_fst_params (nowMs : Int) (c : Controller δ ρ)
    (s : Scope) :
    (onParamsChange nowMs c s).1.startTime =
        applyNumParam s.startTime (DEFAULT_START_TIME nowMs) c.startTime ∧
    (onParamsChange nowMs c s).1.duration =
        applyNumParam s.duration DEFAULT_DURATION c.duration ∧
    (onParamsChange nowMs c s).1.clientLabel =
        applyStrParam s.clientLabel DEFAULT_CLIENT_LABEL c.clientLabel := by
  unfold onParamsChange
  by_cases hn : jsTruthyStr s.name = true
  · rw [if_pos hn]
    rcases fetchData_fst
        { c with
          startTime := applyNumParam s.startTime (DEFAULT_START_TIME nowMs)
            c.startTime
          duration := applyNumParam s.duration DEFAULT_DURATION c.duration
          clientLabel := applyStrParam s.clientLabel DEFAULT_CLIENT_LABEL
            c.clientLabel } s with hf | hf <;> rw [hf] <;>
      exact ⟨rfl, rfl, rfl⟩
  · rw [if_neg hn]
    exact ⟨rfl, rfl, rfl⟩

/-- The state of the controller returned by `onParamsChange_` is either the
incoming state or `'LOADING'`. -/
lemma onParamsChange_fst_state (nowMs : Int) (c : Controller δ ρ)
    (s : Scope) :
    (onParamsChange nowMs c s).1.state = c.state ∨
    (onParamsChange nowMs c s).1.state = "LOADING" := by
  unfold onParamsChange
  by_cases hn : jsTruthyStr s.name = true
  · rw [if_pos hn]
    rcases fetchData_fst
        { c with
          startTime := applyNumParam s.startTime (DEFAULT_START_TIME nowMs)
            c.startTime
          duration := applyNumParam s.duration DEFAULT_DURATION c.duration
          clientLabel := applyStrParam s.clientLabel DEFAULT_CLIENT_LABEL
            c.clientLabel } s with hf | hf <;> rw [hf]
    · left; rfl
    · right; rfl
  · rw [if_neg hn]
    left
    rfl

/-- Claim C3: a binding explicitly set to `null` makes the handler restore
the documented default: start time one month before module-load time in
backend timestamp units (microseconds), duration 30 days = 2592000 seconds,
client label the empty string. -/
theorem onParamsChange_null_restores_defaults (nowMs : Int)
    (c : Controller δ ρ) (s : Scope) :
    (s.startTime = JsVal.nullV →
      (onParamsChange nowMs c s).1.startTime =
        (nowMs - 30 * 24 * 60 * 60 * 1000) * 1000) ∧
    (s.duration = JsVal.nullV →
      (onParamsChange nowMs c s).1.duration = 2592000) ∧
    (s.clientLabel = JsVal.nullV →
      (onParamsChange nowMs c s).1.clientLabel = "") := by
  obtain ⟨h1, h2, h3⟩ := onParamsChange_fst_params nowMs c s
  refine ⟨fun hn => ?_, fun hn => ?_, fun hn => ?_⟩
  · rw [h1, hn]
    simp [applyNumParam, DEFAULT_START_TIME, MONTH_SECONDS]
  · rw [h2, hn]
    simp [applyNumParam, DEFAULT_DURATION, MONTH_SECONDS]
  · rw [h3, hn]
    rfl

/-- Witness for C3: with all three bindings `null`, the defaults come back. -/
theorem onParamsChange_null_restores_defaults_witness :
    (onParamsChange 1700000000000 ctrlW scopeW).1.startTime =
      (1700000000000 - 30 * 24 * 60 * 60 * 1000) * 1000 ∧
    (onParamsChange 1700000000000 ctrlW scopeW).1.duration = 2592000 ∧
    (onParamsChange 1700000000000 ctrlW scopeW).1.clientLabel = "" :=
  ⟨(onParamsChange_null_restores_defaults 1700000000000 ctrlW scopeW).1 rfl,
   (onParamsChange_null_restores_defaults 1700000000000 ctrlW scopeW).2.1 rfl,
   (onParamsChange_null_restores_defaults 1700000000000 ctrlW scopeW).2.2 rfl⟩

/-- Counterexample to C4 as stated: with the stored start time previously
`1` and the binding `undefined`, the handler keeps `1`; the documented
default (for module-load time `0`) is not restored. -/
theorem onParamsChange_undefined_counterexample :
    (onParamsChange 0 { ctrlW with startTime := 1 }
        { name := JsVal.undefinedV
          startTime := JsVal.undefinedV
          duration := JsVal.undefinedV
          clientLabel := JsVal.undefinedV }).1.startTime = 1 ∧
    (1 : Int) ≠ DEFAULT_START_TIME 0 := by
  exact ⟨rfl, by decide⟩

/-- Claim C4 (amended): each binding is handled independently — one that is
`undefined`, or falsy-invalid (`0` for the numbers, the empty string for the
label), leaves that parameter's stored value untouched, whatever the other
bindings hold, and the handler never raises (it is a total function);
because the constructor initializes the stored values to the documented
defaults, a parameter that was never explicitly set still reads as its
default. -/
theorem onParamsChange_undefined_keeps_current (nowMs : Int)
    (c : Controller δ ρ) (s : Scope) :
    ((s.startTime = JsVal.undefinedV ∨ s.startTime = JsVal.value 0) →
      (onParamsChange nowMs c s).1.startTime = c.startTime) ∧
    ((s.duration = JsVal.undefinedV ∨ s.duration = JsVal.value 0) →
      (onParamsChange nowMs c s).1.duration = c.duration) ∧
    ((s.clientLabel = JsVal.undefinedV ∨
        s.clientLabel = JsVal.value "") →
      (onParamsChange nowMs c s).1.clientLabel = c.clientLabel) ∧
    ((initialController nowMs : Controller δ ρ).startTime =
        DEFAULT_START_TIME nowMs ∧
     (initialController nowMs : Controller δ ρ).duration =
        DEFAULT_DURATION ∧
     (initialController nowMs : Controller δ ρ).clientLabel =
        DEFAULT_CLIENT_LABEL) := by
  obtain ⟨h1, h2, h3⟩ := onParamsChange_fst_params nowMs c s
  refine ⟨fun hst => ?_, fun hd => ?_, fun hcl => ?_, rfl, rfl, rfl⟩
  · rcases hst with hn | hn <;> rw [h1, hn] <;> rfl
  · rcases hd with hn | hn <;> rw [h2, hn] <;> rfl
  · rcases hcl with hn | hn <;> rw [h3, hn] <;> rfl

/-- Witness for the amended C4: with the start-time and label bindings
`undefined` while the name and duration bindings are truthy, the edited
start time and label survive untouched. -/
theorem onParamsChange_undefined_keeps_current_witness :
    (onParamsChange 0 ctrlEdited scopeMixed).1.startTime = 5 ∧
    (onParamsChange 0 ctrlEdited scopeMixed).1.clientLabel = "lbl" :=
  ⟨(onParamsChange_undefined_keeps_current 0 ctrlEdited scopeMixed).1
      (Or.inl rfl),
   (onParamsChange_undefined_keeps_current 0 ctrlEdited scopeMixed).2.2.1
      (Or.inl rfl)⟩

/-- Claim C5: for a truthy (non-empty) report name `nm`, `fetchData_` sets
the state to `'LOADING'` and issues `GET 'stats/reports/' + nm` carrying the
controller's current `start_time`/`duration`/`client_label`; with a falsy
name neither `fetchData_` nor the change handler issues a request; when the
response is fulfilled the type-stripped `data`/`desc` are stored and the
state becomes `'LOADED'`. -/
theorem fetch_request_and_state (c : Controller δ ρ) (s : Scope)
    (nowMs : Int) (titleCase : String → String) (resp : ApiResponse δ ρ) :
    (∀ nm, s.name = JsVal.value nm → nm ≠ "" →
      fetchData c s =
        ({ c with state := "LOADING" },
         some { url := "stats/reports/" ++ nm, start_time := c.startTime,
                duration := c.duration, client_label := c.clientLabel })) ∧
    (jsTruthyStr s.name = false → fetchData c s = (c, none)) ∧
    (jsTruthyStr s.name = false → (onParamsChange nowMs c s).2 = none) ∧
    ((onFetchResponse titleCase c resp).state = "LOADED" ∧
     (onFetchResponse titleCase c resp).reportData =
        some (stripTypeInfo resp.data) ∧
     (onFetchResponse titleCase c resp).reportDesc =
        some (stripTypeInfo resp.desc)) := by
  refine ⟨?_, ?_, ?_, rfl, rfl, rfl⟩
  · intro nm hnm hne
    unfold fetchData
    rw [hnm]
    simp [hne]
  · intro hn
    cases hnm : s.name with
    | value nm =>
      have hne : nm = "" := by
        rw [hnm] at hn
        simpa [jsTruthyStr] using hn
      unfold fetchData
      rw [hnm]
      simp [hne]
    | undefinedV =>
      unfold fetchData
      rw [hnm]
    | nullV =>
      unfold fetchData
      rw [hnm]
  · intro hn
    unfold onParamsChange
    rw [if_neg (by simp [hn])]

/-- Witness for C5: the sample scope names the report `OSBreakdown`, so the
request targets `stats/reports/OSBreakdown`. -/
theorem fetch_request_and_state_witness :
    fetchData ctrlW scopeW =
      ({ ctrlW with state := "LOADING" },
       some { url := "stats/reports/" ++ "OSBreakdown",
              start_time := ctrlW.startTime, duration := ctrlW.duration,
              client_label := ctrlW.clientLabel }) :=
  (fetch_request_and_state ctrlW scopeW 0 id respW).1 "OSBreakdown" rfl
    (by decide)

/-- Claim C6: a failed request runs no callback — `fetchData_` registers no
rejection handler — so it causes no state transition at all (in particular a
controller at `'LOADING'` stays there), and every state the controller code
can reach is one of `'INITIAL'`, `'LOADING'`, `'LOADED'`. -/
theorem failed_fetch_and_reachable_states (titleCase : String → String)
    (c : Controller δ ρ) (s : Scope) (nowMs : Int) :
    resolveFetch titleCase c FetchOutcome.failure = c ∧
    (initialController nowMs : Controller δ ρ).state ∈ allowedStates ∧
    (c.state ∈ allowedStates →
      (onParamsChange nowMs c s).1.state ∈ allowedStates ∧
      (fetchData c s).1.state ∈ allowedStates ∧
      ∀ o : FetchOutcome δ ρ,
        (resolveFetch titleCase c o).state ∈ allowedStates) := by
  refine ⟨rfl, by simp [initialController, allowedStates], fun h => ⟨?_, ?_, ?_⟩⟩
  · rcases onParamsChange_fst_state nowMs c s with hs | hs <;> rw [hs]
    · exact h
    · simp [allowedStates]
  · rcases fetchData_fst c s with hf | hf <;> rw [hf]
    · exact h
    · simp [allowedStates]
  · intro o
    cases o with
    | success resp => simp [resolveFetch, onFetchResponse, allowedStates]
    | failure => exact h

/-- Witness for C6: resolving a failure against the fresh controller leaves
it untouched. -/
theorem failed_fetch_and_reachable_states_witness :
    (onParamsChange 0 ctrlW scopeW).1.state ∈ allowedStates :=
  ((failed_fetch_and_reachable_states id ctrlW scopeW 0).2.2 (by decide)).1

/-- Claim C7: `refreshReport` copies the user-edited `typedStartTime`,
`typedDuration` and `modelClientLabel` into the scope bindings, leaves the
`name` binding alone, and returns the controller itself unchanged; it
performs no request of its own — a re-fetch can only come from the watcher
firing `onParamsChange_` on the new scope values. -/
theorem refreshReport_copies_edits (c : Controller δ ρ) (s : Scope) :
    refreshReport c s =
      (c, { name := s.name, startTime := JsVal.value c.typedStartTime,
            duration := JsVal.value c.typedDuration,
            clientLabel := JsVal.value c.modelClientLabel }) :=
  rfl

end Grr
